import Mathlib

/-!
Shallow embedding of the SEFS filesystem engine
(`rcore-fs-sefs/src/lib.rs`): superblock and free-map allocator,
directory-entry layout and its mutation algorithms
(create/link/unlink/rename/move), modelled as pure functions on an
explicit filesystem state.  Machine integers (`u32`/`usize`) are
modelled as `Nat`; none of the modelled quantities can overflow in
the modelled operations (they only grow by small increments bounded
by the block count).  Fallible operations return `Except FsError`.
-/

/-- Block size in bytes.  Modelled from the spec: `BLKSIZE`, e.g. 4096
bytes (the constant lives in the missing `structs` module). -/
def BLKSIZE : Nat := 4096

/-- Number of bits in one block.  Modelled from the spec:
`BLKBITS = 8 * BLKSIZE`. -/
def BLKBITS : Nat := 8 * BLKSIZE

/-- Block id of the superblock. -/
def BLKN_SUPER : Nat := 0

/-- Block id of the free map. -/
def BLKN_FREEMAP : Nat := 1

/-- Block id of the root inode. -/
def BLKN_ROOT : Nat := 2

/-- Magic number of the filesystem.  Modelled from the spec: a fixed
constant validated on `open`; its concrete value is irrelevant here. -/
def MAGIC : Nat := 0x2f8dbe2b

/-- File type stored in a `DiskINode` (the variants the engine uses). -/
inductive FileType where
  | file
  | dir
deriving DecidableEq, Repr

/-- Error kinds of `vfs::FsError` used by the engine.  `invalid` is the
model's image of the source's panics / failed assertions / `unwrap`s on
unreachable device errors (e.g. reading a directory entry past the end
of the backing file); no claim is about `invalid`. -/
inductive FsError where
  | NotFile
  | NotDir
  | IsDir
  | DirRemoved
  | DirNotEmpty
  | EntryExist
  | EntryNotFound
  | NotSameFs
  | NoDeviceSpace
  | WrongFs
  | DeviceError
  | invalid
deriving DecidableEq, Repr

/-- On-disk superblock: `{magic, blocks, unused_blocks}`.  Modelled from
the spec: the struct lives in the missing `structs` module. -/
structure SuperBlock where
  magic : Nat
  blocks : Nat
  unused_blocks : Nat
deriving DecidableEq, Repr

/-- On-disk inode record.  Modelled from the spec: fields `size` (file
byte length), `type`, `blocks` (directory entry count), `atime`,
`mtime`, `ctime`, `nlinks`, `uid`, `gid`; the struct lives in the
missing `structs` module. -/
structure DiskINode where
  size : Nat
  type_ : FileType
  blocks : Nat
  atime : Nat
  mtime : Nat
  ctime : Nat
  nlinks : Nat
  uid : Nat
  gid : Nat
deriving DecidableEq, Repr

/-- A fresh file inode record.  Modelled from the spec: all counters
start at zero (`create` then increments `nlinks` once, yielding 1). -/
def DiskINode.new_file : DiskINode :=
  ⟨0, FileType.file, 0, 0, 0, 0, 0, 0, 0⟩

/-- A fresh directory inode record.  Modelled from the spec: all
counters start at zero (`dirent_init` sets `blocks`; the invoker
increments `nlinks`). -/
def DiskINode.new_dir : DiskINode :=
  ⟨0, FileType.dir, 0, 0, 0, 0, 0, 0, 0⟩

/-- One directory entry: `{id: u32, name: Str256}`.  `Str256` (a
NUL-padded 256-byte buffer compared up to the first NUL) is modelled as
`String`. -/
structure DiskEntry where
  id : Nat
  name : String
deriving DecidableEq, Repr

/-- Live inode: its dirty-guarded `DiskINode` plus the contents of its
backing file.  Only the directory view of the backing file (the packed
`DiskEntry` array) is modelled; no claim reads file bytes. -/
structure Inode where
  disk_inode : DiskINode
  entries : List DiskEntry
deriving DecidableEq, Repr

/-- Filesystem state: superblock, free map (`true` = free) and the
inode table keyed by inode id.  The source keeps a weak cache plus the
meta-file; the model merges them into one authoritative table. -/
structure FS where
  super_block : SuperBlock
  free_map : List Bool
  inodes : List (Nat × Inode)
deriving DecidableEq, Repr

/-- Association-list lookup for the inode table. -/
def lookupAssoc : List (Nat × Inode) → Nat → Option Inode
  | [], _ => none
  | (k, x) :: t, id => if k = id then some x else lookupAssoc t id

/-- Association-list update (insert or replace) for the inode table. -/
def setAssoc : List (Nat × Inode) → Nat → Inode → List (Nat × Inode)
  | [], id, v => [(id, v)]
  | (k, x) :: t, id, v =>
      if k = id then (id, v) :: t else (k, x) :: setAssoc t id v

/-- Fetch the live inode with the given id (`SEFS::get_inode`; the
source asserts the id is in use and loads it from the meta-file). -/
def FS.getInode? (fs : FS) (id : Nat) : Option Inode :=
  lookupAssoc fs.inodes id

/-- Store an inode under its id. -/
def FS.setInode (fs : FS) (id : Nat) (ino : Inode) : FS :=
  { fs with inodes := setAssoc fs.inodes id ino }

/-- Write a directory entry at slot `i` of the backing file
(`File::write_direntry`): overwrite when the slot exists, append when
writing just past the end; beyond that the source never writes. -/
def writeDirentry (l : List DiskEntry) (i : Nat) (e : DiskEntry) :
    Option (List DiskEntry) :=
  if i < l.length then some (l.set i e)
  else if i = l.length then some (l ++ [e])
  else none

/-- The valid directory entries of an inode: the first `blocks` slots
of the backing file. -/
def Inode.dirEntries (ino : Inode) : List DiskEntry :=
  ino.entries.take ino.disk_inode.blocks

/-- First entry with the given name, together with its slot index
(scan order of `(0..blocks).find` in the source). -/
def findEntryAux : List DiskEntry → String → Option (Nat × Nat)
  | [], _ => none
  | e :: es, name =>
      if e.name = name then some (e.id, 0)
      else (findEntryAux es name).map (fun p => (p.1, p.2 + 1))

/-- `INodeImpl::get_file_inode_and_entry_id`: scan slots `0..blocks`
for the name, returning `(inode id, slot)`. -/
def get_file_inode_and_entry_id (ino : Inode) (name : String) :
    Option (Nat × Nat) :=
  findEntryAux ino.dirEntries name

/-- `INodeImpl::get_file_inode_id`. -/
def get_file_inode_id (ino : Inode) (name : String) : Option Nat :=
  (get_file_inode_and_entry_id ino name).map (fun p => p.1)

/-- `INodeImpl::dirent_init`: set `blocks = 2` and write the entries
`(self, ".")` and `(parent, "..")` at slots 0 and 1. -/
def dirent_init (ino : Inode) (selfId parent : Nat) : Option Inode :=
  let ino1 : Inode := { ino with disk_inode.blocks := 2 }
  match writeDirentry ino1.entries 0 ⟨selfId, "."⟩ with
  | none => none
  | some es0 =>
    match writeDirentry es0 1 ⟨parent, ".."⟩ with
    | none => none
    | some es1 => some { ino1 with entries := es1 }

/-- `INodeImpl::dirent_append`: write at slot `blocks`, then increment
`blocks`. -/
def dirent_append (ino : Inode) (e : DiskEntry) : Option Inode :=
  match writeDirentry ino.entries ino.disk_inode.blocks e with
  | none => none
  | some es =>
      some { ino with entries := es,
                      disk_inode.blocks := ino.disk_inode.blocks + 1 }

/-- `INodeImpl::dirent_remove`: read the last entry, copy it into slot
`i` unless `i` is the last slot, truncate the backing file to
`blocks - 1` entries, decrement `blocks`. -/
def dirent_remove (ino : Inode) (i : Nat) : Option Inode :=
  let total := ino.disk_inode.blocks
  match ino.entries[total - 1]? with
  | none => none
  | some last =>
    let es? : Option (List DiskEntry) :=
      if i ≠ total - 1 then writeDirentry ino.entries i last
      else some ino.entries
    match es? with
    | none => none
    | some es =>
        some { ino with entries := es.take (total - 1),
                        disk_inode.blocks := total - 1 }

/-- `INodeImpl::nlinks_inc`. -/
def nlinks_inc (ino : Inode) : Inode :=
  { ino with disk_inode.nlinks := ino.disk_inode.nlinks + 1 }

/-- `INodeImpl::nlinks_dec` (the source asserts `nlinks > 0`). -/
def nlinks_dec (ino : Inode) : Option Inode :=
  if ino.disk_inode.nlinks = 0 then none
  else some { ino with disk_inode.nlinks := ino.disk_inode.nlinks - 1 }

/-- Index of the lowest `true` bit: the source's
`(0..self.len()).find(|&i| self[i])`. -/
def lowestTrue : List Bool → Option Nat
  | [] => none
  | b :: t => if b then some 0 else (lowestTrue t).map (fun i => i + 1)

/-- `BitsetAlloc for BitVec`: find the lowest `true` bit, clear it. -/
def bitsetAlloc (l : List Bool) : Option (Nat × List Bool) :=
  match lowestTrue l with
  | none => none
  | some id => some (id, l.set id false)

/-- `SEFS::alloc_block`: on a found bit, restore it and fail when
`unused_blocks` is already 0 (contract violation); otherwise clear the
bit and decrement `unused_blocks`.  Returns the allocated id (if any)
together with the resulting state. -/
def FS.alloc_block (fs : FS) : Option Nat × FS :=
  match bitsetAlloc fs.free_map with
  | none => (none, fs)
  | some (block_id, fm) =>
    if fs.super_block.unused_blocks = 0 then
      (none, { fs with free_map := fm.set block_id true })
    else
      (some block_id,
       { fs with free_map := fm,
                 super_block.unused_blocks :=
                   fs.super_block.unused_blocks - 1 })

/-- `SEFS::free_block`: assert the bit is clear, set it, increment
`unused_blocks`. -/
def FS.free_block (fs : FS) (block_id : Nat) : Option FS :=
  match fs.free_map[block_id]? with
  | some false =>
      some { fs with free_map := fs.free_map.set block_id true,
                     super_block.unused_blocks :=
                       fs.super_block.unused_blocks + 1 }
  | _ => none

/-- Update the inode with the given id by a pure function (no-op when
the id is absent; the source would have panicked earlier in that
case). -/
def FS.updateInode (fs : FS) (id : Nat) (f : Inode → Inode) : FS :=
  match fs.getInode? id with
  | some ino => fs.setInode id (f ino)
  | none => fs

/-- Update the inode with the given id by a fallible function; a
failure is the image of a source panic or device error. -/
def FS.updateInodeE (fs : FS) (id : Nat) (f : Inode → Option Inode) :
    Except FsError FS :=
  match fs.getInode? id with
  | none => Except.error FsError.invalid
  | some ino =>
    match f ino with
    | none => Except.error FsError.invalid
    | some ino2 => Except.ok (fs.setInode id ino2)

/-- `INodeImpl::create` (`vfs::INode::create`): check the receiver is a
live directory and the name is fresh, allocate a block, build the child
(`new_inode_file` / `new_inode_dir` with `dirent_init`), append the
entry in the receiver, then fix up link counts. -/
def FS.create (fs : FS) (selfId : Nat) (name : String)
    (type_ : FileType) : Except FsError (FS × Nat) :=
  match fs.getInode? selfId with
  | none => Except.error FsError.invalid
  | some self =>
    if self.disk_inode.type_ ≠ FileType.dir then Except.error FsError.NotDir
    else if self.disk_inode.nlinks = 0 then Except.error FsError.DirRemoved
    else if (get_file_inode_id self name).isSome then
      Except.error FsError.EntryExist
    else
      match fs.alloc_block with
      | (none, _) => Except.error FsError.NoDeviceSpace
      | (some newId, fs1) =>
        let childInit : Option Inode :=
          match type_ with
          | FileType.file => some ⟨DiskINode.new_file, []⟩
          | FileType.dir => dirent_init ⟨DiskINode.new_dir, []⟩ newId selfId
        match childInit with
        | none => Except.error FsError.invalid
        | some child =>
          let fs2 := fs1.setInode newId child
          match fs2.updateInodeE selfId
              (fun s => dirent_append s ⟨newId, name⟩) with
          | Except.error e => Except.error e
          | Except.ok fs3 =>
            let fs4 := fs3.updateInode newId nlinks_inc
            let fs5 :=
              if type_ = FileType.dir then
                (fs4.updateInode newId nlinks_inc).updateInode selfId
                  nlinks_inc
              else fs4
            Except.ok (fs5, newId)

/-- `INodeImpl::unlink`: reject `.`/`..`, require the entry, require an
empty directory target (`blocks ≤ 2`), decrement link counts, remove
the entry. -/
def FS.unlink (fs : FS) (selfId : Nat) (name : String) :
    Except FsError FS :=
  match fs.getInode? selfId with
  | none => Except.error FsError.invalid
  | some self =>
    if self.disk_inode.type_ ≠ FileType.dir then Except.error FsError.NotDir
    else if self.disk_inode.nlinks = 0 then Except.error FsError.DirRemoved
    else if name = "." then Except.error FsError.IsDir
    else if name = ".." then Except.error FsError.IsDir
    else
      match get_file_inode_and_entry_id self name with
      | none => Except.error FsError.EntryNotFound
      | some (inode_id, entry_id) =>
        match fs.getInode? inode_id with
        | none => Except.error FsError.invalid
        | some inode =>
          if inode.disk_inode.type_ = FileType.dir ∧
              2 < inode.disk_inode.blocks then
            Except.error FsError.DirNotEmpty
          else
            match fs.updateInodeE inode_id nlinks_dec with
            | Except.error e => Except.error e
            | Except.ok fs1 =>
              match (if inode.disk_inode.type_ = FileType.dir then
                      match fs1.updateInodeE inode_id nlinks_dec with
                      | Except.error e => Except.error e
                      | Except.ok fs2 => fs2.updateInodeE selfId nlinks_dec
                    else Except.ok fs1) with
              | Except.error e => Except.error e
              | Except.ok fs3 =>
                fs3.updateInodeE selfId (fun s => dirent_remove s entry_id)

/-- `INodeImpl::link`: hard-link a non-directory into the receiver. -/
def FS.link (fs : FS) (selfId : Nat) (name : String) (otherId : Nat) :
    Except FsError FS :=
  match fs.getInode? selfId with
  | none => Except.error FsError.invalid
  | some self =>
    if self.disk_inode.type_ ≠ FileType.dir then Except.error FsError.NotDir
    else if self.disk_inode.nlinks = 0 then Except.error FsError.DirRemoved
    else if (get_file_inode_id self name).isSome then
      Except.error FsError.EntryExist
    else
      match fs.getInode? otherId with
      | none => Except.error FsError.invalid
      | some child =>
        if child.disk_inode.type_ = FileType.dir then
          Except.error FsError.IsDir
        else
          match fs.updateInodeE selfId
              (fun s => dirent_append s ⟨otherId, name⟩) with
          | Except.error e => Except.error e
          | Except.ok fs1 => Except.ok (fs1.updateInode otherId nlinks_inc)

/-- `INodeImpl::rename`: same-directory rename; overwrite the entry's
name in place (id unchanged). -/
def FS.rename (fs : FS) (selfId : Nat) (old_name new_name : String) :
    Except FsError FS :=
  match fs.getInode? selfId with
  | none => Except.error FsError.invalid
  | some self =>
    if self.disk_inode.type_ ≠ FileType.dir then Except.error FsError.NotDir
    else if self.disk_inode.nlinks = 0 then Except.error FsError.DirRemoved
    else if old_name = "." then Except.error FsError.IsDir
    else if old_name = ".." then Except.error FsError.IsDir
    else if (get_file_inode_id self new_name).isSome then
      Except.error FsError.EntryExist
    else
      match get_file_inode_and_entry_id self old_name with
      | none => Except.error FsError.EntryNotFound
      | some (inode_id, entry_id) =>
        fs.updateInodeE selfId (fun s =>
          match writeDirentry s.entries entry_id ⟨inode_id, new_name⟩ with
          | none => none
          | some es => some { s with entries := es })

/-- `INodeImpl::move_`: cross-directory move.  NOTE: the source checks
the `new_name` collision against the RECEIVER (`self`), not against
`dest` (line 335 of `lib.rs`); the embedding mirrors that. -/
def FS.move_ (fs : FS) (selfId : Nat) (old_name : String)
    (targetId : Nat) (new_name : String) : Except FsError FS :=
  match fs.getInode? selfId with
  | none => Except.error FsError.invalid
  | some self =>
    if self.disk_inode.type_ ≠ FileType.dir then Except.error FsError.NotDir
    else if self.disk_inode.nlinks = 0 then Except.error FsError.DirRemoved
    else if old_name = "." then Except.error FsError.IsDir
    else if old_name = ".." then Except.error FsError.IsDir
    else
      match fs.getInode? targetId with
      | none => Except.error FsError.invalid
      | some dest =>
        if dest.disk_inode.type_ ≠ FileType.dir then
          Except.error FsError.NotDir
        else if dest.disk_inode.nlinks = 0 then
          Except.error FsError.DirRemoved
        else if (get_file_inode_id self new_name).isSome then
          Except.error FsError.EntryExist
        else
          match get_file_inode_and_entry_id self old_name with
          | none => Except.error FsError.EntryNotFound
          | some (inode_id, entry_id) =>
            match fs.getInode? inode_id with
            | none => Except.error FsError.invalid
            | some inode =>
              match fs.updateInodeE targetId
                  (fun d => dirent_append d ⟨inode_id, new_name⟩) with
              | Except.error e => Except.error e
              | Except.ok fs1 =>
                match fs1.updateInodeE selfId
                    (fun s => dirent_remove s entry_id) with
                | Except.error e => Except.error e
                | Except.ok fs2 =>
                  if inode.disk_inode.type_ = FileType.dir then
                    match fs2.updateInodeE selfId nlinks_dec with
                    | Except.error e => Except.error e
                    | Except.ok fs3 =>
                        Except.ok (fs3.updateInode targetId nlinks_inc)
                  else Except.ok fs2

/-- `INodeImpl::find`: directory-only lookup, returning the inode id
(the source returns the shared handle from `get_inode`). -/
def FS.find (fs : FS) (selfId : Nat) (name : String) :
    Except FsError Nat :=
  match fs.getInode? selfId with
  | none => Except.error FsError.invalid
  | some self =>
    if self.disk_inode.type_ ≠ FileType.dir then Except.error FsError.NotDir
    else
      match get_file_inode_id self name with
      | none => Except.error FsError.EntryNotFound
      | some id => Except.ok id

/-- `INodeImpl::get_entry`: name stored at slot `i`; `EntryNotFound`
when `i ≥ blocks`. -/
def FS.get_entry (fs : FS) (selfId : Nat) (i : Nat) :
    Except FsError String :=
  match fs.getInode? selfId with
  | none => Except.error FsError.invalid
  | some self =>
    if self.disk_inode.type_ ≠ FileType.dir then Except.error FsError.NotDir
    else if self.disk_inode.blocks ≤ i then
      Except.error FsError.EntryNotFound
    else
      match self.entries[i]? with
      | none => Except.error FsError.invalid
      | some e => Except.ok e.name

/-- Free map built by `SEFS::create`: all `false`, then bits
`3..BLKBITS` set `true`. -/
def init_free_map : List Bool :=
  (List.range' 3 (BLKBITS - 3)).foldl (fun m i => m.set i true)
    (List.replicate BLKBITS false)

/-- `SEFS::create`: superblock with `unused_blocks = blocks - 3`, the
initial free map, and the root directory (its own parent) with two
link-count increments for `.` and `..`. -/
def SEFS_create : Option FS :=
  let blocks := BLKBITS
  let sb : SuperBlock := ⟨MAGIC, blocks, blocks - 3⟩
  let fs0 : FS := ⟨sb, init_free_map, []⟩
  match dirent_init ⟨DiskINode.new_dir, []⟩ BLKN_ROOT BLKN_ROOT with
  | none => none
  | some root0 =>
    some (fs0.setInode BLKN_ROOT (nlinks_inc (nlinks_inc root0)))

/-- Example directory inode for exercising `dirent_remove`. -/
def c5ex : Inode :=
  ⟨⟨0, FileType.dir, 3, 0, 0, 0, 2, 0, 0⟩,
   [⟨2, "."⟩, ⟨2, ".."⟩, ⟨3, "a"⟩]⟩

/-- Example root directory inode (id 2, `.` and `..` only). -/
def c7root : Inode :=
  ⟨⟨0, FileType.dir, 2, 0, 0, 0, 2, 0, 0⟩, [⟨2, "."⟩, ⟨2, ".."⟩]⟩

/-- Example filesystem with just the root directory. -/
def c7fs : FS :=
  ⟨⟨MAGIC, 8, 5⟩, [false, false, false, true, true, true, true, true],
   [(2, c7root)]⟩

/-- Example filesystem for the allocator (no inodes needed). -/
def c2fs : FS := ⟨⟨MAGIC, 4, 2⟩, [false, true, true, false], []⟩

/-- Decidable equality for `Except`, used to evaluate the operations
at concrete inputs. -/
instance {e a : Type} [DecidableEq e] [DecidableEq a] :
    DecidableEq (Except e a)
  | Except.ok x, Except.ok y =>
      if h : x = y then isTrue (by rw [h])
      else isFalse (by intro hc; injection hc; contradiction)
  | Except.ok _, Except.error _ =>
      isFalse (by intro hc; exact Except.noConfusion hc)
  | Except.error _, Except.ok _ =>
      isFalse (by intro hc; exact Except.noConfusion hc)
  | Except.error x, Except.error y =>
      if h : x = y then isTrue (by rw [h])
      else isFalse (by intro hc; injection hc; contradiction)

/-- Example directory for the rename round-trip: `a` bound to id 3. -/
def c6root : Inode :=
  ⟨⟨0, FileType.dir, 3, 0, 0, 0, 3, 0, 0⟩,
   [⟨2, "."⟩, ⟨2, ".."⟩, ⟨3, "a"⟩]⟩

/-- Example file inode with one link. -/
def c6file : Inode := ⟨⟨0, FileType.file, 0, 0, 0, 0, 1, 0, 0⟩, []⟩

/-- Example filesystem for the rename round-trip. -/
def c6fs : FS :=
  ⟨⟨MAGIC, 8, 4⟩,
   [false, false, false, false, true, true, true, true],
   [(2, c6root), (3, c6file)]⟩

/-- The root after `rename "a" "b"`: same slot, same id, new name. -/
def c6rootAfter : Inode :=
  ⟨⟨0, FileType.dir, 3, 0, 0, 0, 3, 0, 0⟩,
   [⟨2, "."⟩, ⟨2, ".."⟩, ⟨3, "b"⟩]⟩

/-- Example receiver directory with a non-empty subdirectory `d`. -/
def c4root : Inode :=
  ⟨⟨0, FileType.dir, 3, 0, 0, 0, 3, 0, 0⟩,
   [⟨2, "."⟩, ⟨2, ".."⟩, ⟨3, "d"⟩]⟩

/-- Example non-empty subdirectory (three entries: `.`, `..`, `x`). -/
def c4sub : Inode :=
  ⟨⟨0, FileType.dir, 3, 0, 0, 0, 2, 0, 0⟩,
   [⟨3, "."⟩, ⟨2, ".."⟩, ⟨4, "x"⟩]⟩

/-- Example file inside the subdirectory. -/
def c4file : Inode := ⟨⟨0, FileType.file, 0, 0, 0, 0, 1, 0, 0⟩, []⟩

/-- Example filesystem for the non-empty-unlink check. -/
def c4fs : FS :=
  ⟨⟨MAGIC, 8, 3⟩,
   [false, false, false, false, false, true, true, true],
   [(2, c4root), (3, c4sub), (4, c4file)]⟩

/-- Receiver directory for the move: `a` bound to id 3, no `c`. -/
def c1root : Inode :=
  ⟨⟨0, FileType.dir, 3, 0, 0, 0, 3, 0, 0⟩,
   [⟨2, "."⟩, ⟨2, ".."⟩, ⟨3, "a"⟩]⟩

/-- File inode behind the name `a`. -/
def c1filea : Inode := ⟨⟨0, FileType.file, 0, 0, 0, 0, 1, 0, 0⟩, []⟩

/-- Target directory already containing a `c` entry. -/
def c1target : Inode :=
  ⟨⟨0, FileType.dir, 3, 0, 0, 0, 2, 0, 0⟩,
   [⟨4, "."⟩, ⟨2, ".."⟩, ⟨5, "c"⟩]⟩

/-- File inode behind the target's existing `c`. -/
def c1filec : Inode := ⟨⟨0, FileType.file, 0, 0, 0, 0, 1, 0, 0⟩, []⟩

/-- Filesystem for the move: receiver id 2, target id 4. -/
def c1fs : FS :=
  ⟨⟨MAGIC, 8, 2⟩,
   [false, false, false, false, false, false, true, true],
   [(2, c1root), (3, c1filea), (4, c1target), (5, c1filec)]⟩

/-- Fresh root for exercising `create`. -/
def c3root : Inode :=
  ⟨⟨0, FileType.dir, 2, 0, 0, 0, 2, 0, 0⟩, [⟨2, "."⟩, ⟨2, ".."⟩]⟩

/-- Fresh filesystem with one free block (id 3). -/
def c3fs : FS := ⟨⟨MAGIC, 4, 1⟩, [false, false, false, true], [(2, c3root)]⟩

/-- State after `create "d" Dir` in `c3fs`. -/
def c3fsAfterDir : FS :=
  ⟨⟨MAGIC, 4, 0⟩, [false, false, false, false],
   [(2, ⟨⟨0, FileType.dir, 3, 0, 0, 0, 3, 0, 0⟩,
        [⟨2, "."⟩, ⟨2, ".."⟩, ⟨3, "d"⟩]⟩),
    (3, ⟨⟨0, FileType.dir, 2, 0, 0, 0, 2, 0, 0⟩,
        [⟨3, "."⟩, ⟨2, ".."⟩]⟩)]⟩

/-- State after `create "f" File` in `c3fs`. -/
def c3fsAfterFile : FS :=
  ⟨⟨MAGIC, 4, 0⟩, [false, false, false, false],
   [(2, ⟨⟨0, FileType.dir, 3, 0, 0, 0, 2, 0, 0⟩,
        [⟨2, "."⟩, ⟨2, ".."⟩, ⟨3, "f"⟩]⟩),
    (3, ⟨⟨0, FileType.file, 0, 0, 0, 0, 1, 0, 0⟩, []⟩)]⟩

/-- The filesystem value produced by `SEFS::create`. -/
def createdFS : FS :=
  ⟨⟨MAGIC, BLKBITS, BLKBITS - 3⟩, init_free_map,
   [(BLKN_ROOT, ⟨⟨0, FileType.dir, 2, 0, 0, 0, 2, 0, 0⟩,
     [⟨BLKN_ROOT, "."⟩, ⟨BLKN_ROOT, ".."⟩]⟩)]⟩

/-- The free-map/superblock invariant of §8: `unused_blocks` equals the
number of free bits. -/
def fsInvariant (fs : FS) : Prop :=
  fs.super_block.unused_blocks = fs.free_map.count true

/-- Filesystem for exercising the allocator invariant. -/
def c9fs : FS := ⟨⟨MAGIC, 4, 2⟩, [false, true, false, true], []⟩

/-- State after `free_block 2` on `c9fs`. -/
def c9fsAfter : FS := ⟨⟨MAGIC, 4, 3⟩, [false, true, true, true], []⟩

/-! Lemmas: general facts about the inode table, the bit scan and the
directory-entry scan, followed by the claim theorems and their
witnesses. -/

theorem lookupAssoc_setAssoc_self (l : List (Nat × Inode)) (id : Nat)
    (v : Inode) : lookupAssoc (setAssoc l id v) id = some v := by
  induction l with
  | nil => simp [setAssoc, lookupAssoc]
  | cons h t ih =>
    obtain ⟨k, x⟩ := h
    by_cases hk : k = id
    · simp [setAssoc, hk, lookupAssoc]
    · simp [setAssoc, hk, lookupAssoc, ih]

theorem lookupAssoc_setAssoc_ne (l : List (Nat × Inode)) (id j : Nat)
    (v : Inode) (hne : j ≠ id) :
    lookupAssoc (setAssoc l id v) j = lookupAssoc l j := by
  induction l with
  | nil => simp [setAssoc, lookupAssoc, Ne.symm hne]
  | cons h t ih =>
    obtain ⟨k, x⟩ := h
    by_cases hk : k = id
    · subst hk
      simp [setAssoc, lookupAssoc, Ne.symm hne]
    · simp only [setAssoc, if_neg hk, lookupAssoc]
      by_cases hkj : k = j <;> simp [hkj, ih]

theorem lowestTrue_some (l : List Bool) (i : Nat)
    (h : lowestTrue l = some i) :
    l[i]? = some true ∧ ∀ j, j < i → l[j]? = some false := by
  induction l generalizing i with
  | nil => simp [lowestTrue] at h
  | cons b t ih =>
    cases b with
    | true =>
      simp [lowestTrue] at h
      subst h
      exact ⟨by simp, by omega⟩
    | false =>
      simp only [lowestTrue, if_neg Bool.false_ne_true, Option.map_eq_some'] at h
      obtain ⟨i', hi', rfl⟩ := h
      obtain ⟨h1, h2⟩ := ih i' hi'
      refine ⟨by simpa using h1, ?_⟩
      intro j hj
      cases j with
      | zero => simp
      | succ j' =>
        rw [List.getElem?_cons_succ]
        exact h2 j' (by omega)

theorem lowestTrue_none (l : List Bool) :
    lowestTrue l = none ↔ ∀ b ∈ l, b = false := by
  induction l with
  | nil => simp [lowestTrue]
  | cons b t ih =>
    cases b with
    | true => simp [lowestTrue]
    | false => simp [lowestTrue, ih]

theorem set_get_self (l : List Bool) (i : Nat) (a : Bool)
    (h : l[i]? = some a) : l.set i a = l := by
  induction l generalizing i with
  | nil => simp at h
  | cons x t ih =>
    cases i with
    | zero => simp at h; simp [h]
    | succ i' => simp at h ⊢; exact ih i' h

theorem findEntryAux_none_iff (es : List DiskEntry) (name : String) :
    findEntryAux es name = none ↔ ∀ e ∈ es, e.name ≠ name := by
  induction es with
  | nil => simp [findEntryAux]
  | cons e t ih =>
    by_cases he : e.name = name
    · simp [findEntryAux, he]
    · simp [findEntryAux, he, ih]

theorem findEntryAux_some (es : List DiskEntry) (name : String)
    (x k : Nat) (h : findEntryAux es name = some (x, k)) :
    (∃ e, es[k]? = some e ∧ e.id = x ∧ e.name = name) ∧
    ∀ j, j < k → ∀ f, es[j]? = some f → f.name ≠ name := by
  induction es generalizing x k with
  | nil => simp [findEntryAux] at h
  | cons e t ih =>
    by_cases he : e.name = name
    · simp only [findEntryAux, if_pos he, Option.some.injEq,
        Prod.mk.injEq] at h
      obtain ⟨rfl, rfl⟩ := h
      exact ⟨⟨e, by simp, rfl, he⟩, by omega⟩
    · simp only [findEntryAux, if_neg he, Option.map_eq_some'] at h
      obtain ⟨p, hp, hpe⟩ := h
      obtain ⟨x', k'⟩ := p
      simp only [Prod.mk.injEq] at hpe
      obtain ⟨rfl, rfl⟩ := hpe
      obtain ⟨h1, h2⟩ := ih x' k' hp
      constructor
      · obtain ⟨f, hf1, hf2, hf3⟩ := h1
        exact ⟨f, by simpa using hf1, hf2, hf3⟩
      · intro j hj f hf
        cases j with
        | zero =>
          rw [List.getElem?_cons_zero] at hf
          cases hf
          exact he
        | succ j' =>
          rw [List.getElem?_cons_succ] at hf
          exact h2 j' (by omega) f hf

theorem findEntryAux_intro (es : List DiskEntry) (name : String)
    (k : Nat) (e : DiskEntry) (hk : es[k]? = some e)
    (hname : e.name = name)
    (hprev : ∀ j, j < k → ∀ f, es[j]? = some f → f.name ≠ name) :
    findEntryAux es name = some (e.id, k) := by
  induction es generalizing k with
  | nil => simp at hk
  | cons a t ih =>
    cases k with
    | zero =>
      simp at hk
      subst hk
      simp [findEntryAux, hname]
    | succ k' =>
      have ha : a.name ≠ name := by
        have := hprev 0 (by omega) a (by simp)
        exact this
      simp only [findEntryAux, if_neg ha]
      have hk' : t[k']? = some e := by simpa using hk
      rw [ih k' hk' (fun j hj f hf => hprev (j + 1) (by omega) f (by simpa using hf))]
      rfl

theorem take_set_of_lt {α : Type} (l : List α) (i m : Nat) (x : α)
    (h : i < m) : (l.set i x).take m = (l.take m).set i x := by
  induction l generalizing i m with
  | nil => simp
  | cons a t ih =>
    cases i with
    | zero =>
      cases m with
      | zero => omega
      | succ m' => simp
    | succ i' =>
      cases m with
      | zero => omega
      | succ m' =>
        simp only [List.set_cons_succ, List.take_succ_cons]
        rw [ih i' m' (by omega)]

theorem getElem?_take_of_lt {α : Type} (l : List α) (m j : Nat)
    (h : j < m) : (l.take m)[j]? = l[j]? := by
  induction l generalizing m j with
  | nil => simp
  | cons a t ih =>
    cases m with
    | zero => omega
    | succ m' =>
      cases j with
      | zero => simp
      | succ j' =>
        simp only [List.take_succ_cons, List.getElem?_cons_succ]
        exact ih m' j' (by omega)

theorem drop_pred_eq {α : Type} (l : List α) (last : α)
    (h : l[l.length - 1]? = some last) :
    l.drop (l.length - 1) = [last] := by
  induction l with
  | nil => simp at h
  | cons a t ih =>
    cases t with
    | nil =>
      simp at h
      simp [h]
    | cons b t2 =>
      have hlen : (a :: b :: t2).length - 1 = (b :: t2).length := by
        simp
      rw [hlen] at h ⊢
      have h2 : (b :: t2)[(b :: t2).length - 1]? = some last := by
        have : (b :: t2).length = t2.length + 1 := by simp
        rw [this] at h ⊢
        simpa using h
      have := ih h2
      calc (a :: b :: t2).drop (b :: t2).length
          = (b :: t2).drop ((b :: t2).length - 1) := by
            simp [List.drop]
        _ = [last] := this

theorem eraseIdx_append_left {α : Type} (l1 l2 : List α) (i : Nat)
    (h : i < l1.length) :
    (l1 ++ l2).eraseIdx i = l1.eraseIdx i ++ l2 := by
  induction l1 generalizing i with
  | nil => simp at h
  | cons a t ih =>
    cases i with
    | zero => simp [List.eraseIdx]
    | succ i' =>
      simp only [List.cons_append, List.eraseIdx]
      exact congrArg (List.cons a) (ih i' (by simpa using h))

theorem set_perm_eraseIdx_append {α : Type} (l : List α) (i : Nat)
    (x : α) (h : i < l.length) :
    List.Perm (l.set i x) (l.eraseIdx i ++ [x]) := by
  induction l generalizing i with
  | nil => simp at h
  | cons a t ih =>
    cases i with
    | zero =>
      simp only [List.set_cons_zero, List.eraseIdx]
      exact (List.perm_append_singleton x t).symm
    | succ i' =>
      simp only [List.set_cons_succ, List.eraseIdx, List.cons_append]
      exact List.Perm.cons a (ih i' (by simpa using h))

/-- C5: for every directory with `blocks = n ≥ 1` and slot `i < n`,
`dirent_remove i` copies the entry at slot `n-1` into slot `i` when
`i ≠ n-1`, truncates the backing file to `n-1` entries, sets `blocks`
to `n-1`, and the resulting entry array is the old array with slot
`i`'s entry removed, up to order (swap-with-last). -/
theorem c5_dirent_remove (ino : Inode) (i n : Nat) (last : DiskEntry)
    (hn : ino.disk_inode.blocks = n) (hlen : ino.entries.length = n)
    (h1 : 1 ≤ n) (hi : i < n)
    (hlast : ino.entries[n - 1]? = some last) :
    dirent_remove ino i =
      some { ino with
             disk_inode := { ino.disk_inode with blocks := n - 1 },
             entries := (if i = n - 1 then ino.entries
                         else ino.entries.set i last).take (n - 1) } ∧
    ∀ ino2, dirent_remove ino i = some ino2 →
      List.Perm ino2.entries (ino.entries.eraseIdx i) := by
  have hfirst : dirent_remove ino i =
      some { ino with
             disk_inode := { ino.disk_inode with blocks := n - 1 },
             entries := (if i = n - 1 then ino.entries
                         else ino.entries.set i last).take (n - 1) } := by
    by_cases hcase : i = n - 1
    · simp [dirent_remove, hn, hlast, hcase]
    · have hwrite : writeDirentry ino.entries i last =
          some (ino.entries.set i last) := by
        unfold writeDirentry
        rw [if_pos (by rw [hlen]; omega : i < ino.entries.length)]
      simp [dirent_remove, hn, hlast, hcase, hwrite]
  refine ⟨hfirst, ?_⟩
  intro ino2 h2
  rw [hfirst] at h2
  cases h2
  show List.Perm ((if i = n - 1 then ino.entries
      else ino.entries.set i last).take (n - 1))
    (ino.entries.eraseIdx i)
  by_cases hcase : i = n - 1
  · rw [if_pos hcase, hcase]
    have herase : ino.entries.eraseIdx (n - 1) =
        ino.entries.take (n - 1) := by
      rw [List.eraseIdx_eq_take_drop_succ]
      have hd : ino.entries.drop (n - 1 + 1) = [] := by
        apply List.drop_eq_nil_of_le
        omega
      rw [hd, List.append_nil]
    rw [herase]
  · rw [if_neg hcase]
    have hi2 : i < n - 1 := by omega
    have htake : (ino.entries.set i last).take (n - 1) =
        (ino.entries.take (n - 1)).set i last :=
      take_set_of_lt _ _ _ _ hi2
    have hlentake : (ino.entries.take (n - 1)).length = n - 1 := by
      rw [List.length_take, hlen]
      omega
    have hdecomp : ino.entries = ino.entries.take (n - 1) ++ [last] := by
      conv_lhs => rw [← List.take_append_drop (n - 1) ino.entries]
      congr 1
      have := drop_pred_eq ino.entries last (by rw [hlen]; exact hlast)
      rw [hlen] at this
      exact this
    have herase : ino.entries.eraseIdx i =
        (ino.entries.take (n - 1)).eraseIdx i ++ [last] := by
      conv_lhs => rw [hdecomp]
      exact eraseIdx_append_left _ _ i (by omega)
    rw [htake, herase]
    exact set_perm_eraseIdx_append _ i last (by omega)

/-- Witness for C5: removing slot 0 of a three-entry directory. -/
theorem c5_witness :
    dirent_remove c5ex 0 =
      some { c5ex with
             disk_inode := { c5ex.disk_inode with blocks := 3 - 1 },
             entries := (if 0 = 3 - 1 then c5ex.entries
                         else c5ex.entries.set 0 ⟨3, "a"⟩).take (3 - 1) } :=
  (c5_dirent_remove c5ex 0 3 ⟨3, "a"⟩ rfl rfl (by decide) (by decide)
    rfl).1

/-- C7: `get_entry i` fails with `NotDir` on a non-directory, fails
with `EntryNotFound` when `i ≥ blocks`, and otherwise returns the name
stored in entry slot `i` of the backing file. -/
theorem c7_get_entry (fs : FS) (selfId i : Nat) (self : Inode)
    (hself : fs.getInode? selfId = some self) :
    (self.disk_inode.type_ ≠ FileType.dir →
      FS.get_entry fs selfId i = Except.error FsError.NotDir) ∧
    (self.disk_inode.type_ = FileType.dir →
      self.disk_inode.blocks ≤ i →
      FS.get_entry fs selfId i = Except.error FsError.EntryNotFound) ∧
    (∀ e, self.disk_inode.type_ = FileType.dir →
      i < self.disk_inode.blocks → self.entries[i]? = some e →
      FS.get_entry fs selfId i = Except.ok e.name) := by
  refine ⟨?_, ?_, ?_⟩
  · intro h
    simp [FS.get_entry, hself, h]
  · intro h hle
    simp [FS.get_entry, hself, h, hle]
  · intro e h hlt he
    have hni : ¬ self.disk_inode.blocks ≤ i := by omega
    simp [FS.get_entry, hself, h, hni, he]

/-- Witness for C7: slot 0 of the root is `.`; slot 5 is out of
range. -/
theorem c7_witness :
    FS.get_entry c7fs 2 0 = Except.ok (DiskEntry.mk 2 ".").name ∧
    FS.get_entry c7fs 2 5 = Except.error FsError.EntryNotFound :=
  ⟨(c7_get_entry c7fs 2 0 c7root rfl).2.2 ⟨2, "."⟩ rfl (by decide) rfl,
   (c7_get_entry c7fs 2 5 c7root rfl).2.1 rfl (by decide)⟩

/-- C2: `alloc_block` returns the lowest free bit and clears it while
decrementing `unused_blocks`; when a bit was found but `unused_blocks`
is 0 the bit is restored and `None` returned; when no free bit exists
the state is untouched and `None` returned. -/
theorem c2_alloc_block (fs : FS) :
    (∀ i, lowestTrue fs.free_map = some i →
      fs.free_map[i]? = some true ∧
      (∀ j, j < i → fs.free_map[j]? = some false) ∧
      (0 < fs.super_block.unused_blocks →
        fs.alloc_block =
          (some i,
           { fs with
             free_map := fs.free_map.set i false,
             super_block := { fs.super_block with
               unused_blocks := fs.super_block.unused_blocks - 1 } })) ∧
      (fs.super_block.unused_blocks = 0 →
        fs.alloc_block = (none, fs))) ∧
    (lowestTrue fs.free_map = none → fs.alloc_block = (none, fs)) := by
  constructor
  · intro i hi
    obtain ⟨hget, hbefore⟩ := lowestTrue_some _ _ hi
    refine ⟨hget, hbefore, ?_, ?_⟩
    · intro hpos
      have hz : fs.super_block.unused_blocks ≠ 0 := by omega
      simp [FS.alloc_block, bitsetAlloc, hi, hz]
    · intro hz
      have hrestore : (fs.free_map.set i false).set i true =
          fs.free_map := by
        rw [List.set_set]
        exact set_get_self _ _ _ hget
      simp [FS.alloc_block, bitsetAlloc, hi, hz, hrestore]
  · intro hnone
    simp [FS.alloc_block, bitsetAlloc, hnone]

/-- Witness for C2: allocating in `c2fs` yields bit 1 and decrements
`unused_blocks`. -/
theorem c2_witness :
    FS.alloc_block c2fs =
      (some 1,
       { c2fs with
         free_map := c2fs.free_map.set 1 false,
         super_block := { c2fs.super_block with
           unused_blocks := c2fs.super_block.unused_blocks - 1 } }) :=
  ((c2_alloc_block c2fs).1 1 rfl).2.2.1 (by decide)

theorem getElem?_some_lt {α : Type} (l : List α) (i : Nat) (a : α)
    (h : l[i]? = some a) : i < l.length := by
  induction l generalizing i with
  | nil => simp at h
  | cons x t ih =>
    cases i with
    | zero => simp
    | succ i' =>
      rw [List.getElem?_cons_succ] at h
      have := ih i' h
      simp
      omega

theorem mem_of_getElem' {α : Type} (l : List α) (i : Nat) (a : α)
    (h : l[i]? = some a) : a ∈ l := by
  induction l generalizing i with
  | nil => simp at h
  | cons x t ih =>
    cases i with
    | zero =>
      rw [List.getElem?_cons_zero] at h
      injection h with h2
      subst h2
      exact List.mem_cons_self _ _
    | succ i' =>
      rw [List.getElem?_cons_succ] at h
      exact List.mem_cons_of_mem x (ih i' h)

theorem getElem?_of_mem' {α : Type} (l : List α) (a : α) (h : a ∈ l) :
    ∃ i : Nat, l[i]? = some a := by
  induction l with
  | nil => simp at h
  | cons x t ih =>
    rcases List.mem_cons.mp h with h1 | h2
    · exact ⟨0, by simp [h1]⟩
    · obtain ⟨i, hi⟩ := ih h2
      exact ⟨i + 1, by simpa using hi⟩

theorem getElem?_set_self' {α : Type} (l : List α) (i : Nat) (x : α)
    (h : i < l.length) : (l.set i x)[i]? = some x := by
  induction l generalizing i with
  | nil => simp at h
  | cons y t ih =>
    cases i with
    | zero => simp
    | succ i' =>
      simp only [List.set_cons_succ, List.getElem?_cons_succ]
      exact ih i' (by simpa using h)

theorem getElem?_set_ne' {α : Type} (l : List α) (i j : Nat) (x : α)
    (h : j ≠ i) : (l.set i x)[j]? = l[j]? := by
  induction l generalizing i j with
  | nil => simp
  | cons y t ih =>
    cases i with
    | zero =>
      cases j with
      | zero => omega
      | succ j' => simp
    | succ i' =>
      cases j with
      | zero => simp
      | succ j' =>
        simp only [List.set_cons_succ, List.getElem?_cons_succ]
        exact ih i' j' (by omega)

/-- C6: after a successful `rename a b` in a directory where `a` is
bound (uniquely) to inode id `x` and `b` is absent, `find b` yields
`x`, `find a` yields `EntryNotFound`, and slot `k` holds the entry
`(x, b)` — the name was overwritten in place, the id unchanged. -/
theorem c6_rename_find (fs fs2 : FS) (selfId : Nat) (self : Inode)
    (a b : String) (x k : Nat)
    (hself : fs.getInode? selfId = some self)
    (hdir : self.disk_inode.type_ = FileType.dir)
    (hnl : 0 < self.disk_inode.nlinks)
    (ha1 : a ≠ ".") (ha2 : a ≠ "..")
    (hb : get_file_inode_and_entry_id self b = none)
    (ha : get_file_inode_and_entry_id self a = some (x, k))
    (huniq : ∀ j f, self.entries[j]? = some f →
      j < self.disk_inode.blocks → f.name = a → j = k)
    (hlen : self.disk_inode.blocks ≤ self.entries.length)
    (hren : FS.rename fs selfId a b = Except.ok fs2) :
    FS.find fs2 selfId b = Except.ok x ∧
    FS.find fs2 selfId a = Except.error FsError.EntryNotFound ∧
    (fs2.getInode? selfId).map (fun s => s.entries[k]?) =
      some (some ⟨x, b⟩) := by
  have ha' : findEntryAux self.dirEntries a = some (x, k) := ha
  have hb' : findEntryAux self.dirEntries b = none := hb
  have hdeLen : self.dirEntries.length = self.disk_inode.blocks := by
    simp only [Inode.dirEntries, List.length_take]
    omega
  obtain ⟨⟨e, hek, heid, hena⟩, hbefore⟩ := findEntryAux_some _ _ _ _ ha'
  have hk_lt_de : k < self.dirEntries.length := getElem?_some_lt _ _ _ hek
  have hkb : k < self.disk_inode.blocks := hdeLen ▸ hk_lt_de
  have hkE : k < self.entries.length := lt_of_lt_of_le hkb hlen
  have hba : b ≠ a := by
    intro hba
    rw [hba, ha'] at hb'
    exact Option.noConfusion hb'
  have hz : self.disk_inode.nlinks ≠ 0 := by omega
  have hbnone : get_file_inode_id self b = none := by
    simp [get_file_inode_id, hb]
  have hwrite : writeDirentry self.entries k ⟨x, b⟩ =
      some (self.entries.set k ⟨x, b⟩) := by
    unfold writeDirentry
    rw [if_pos hkE]
  simp only [FS.rename, hself, hdir, ne_eq, not_true_eq_false, if_false,
    hz, ha1, ha2, if_neg, hbnone, Option.isSome_none, Bool.false_eq_true,
    ha, FS.updateInodeE, hwrite, Except.ok.injEq] at hren
  set self2 : Inode := { self with entries := self.entries.set k ⟨x, b⟩ }
    with hself2
  have hget2 : fs2.getInode? selfId = some self2 := by
    rw [← hren]
    exact lookupAssoc_setAssoc_self _ _ _
  have hde2 : self2.dirEntries = self.dirEntries.set k ⟨x, b⟩ := by
    show (self.entries.set k ⟨x, b⟩).take self.disk_inode.blocks = _
    exact take_set_of_lt _ _ _ _ hkb
  have hfoundb : findEntryAux self2.dirEntries b = some (x, k) := by
    rw [hde2]
    have := findEntryAux_intro (self.dirEntries.set k ⟨x, b⟩) b k ⟨x, b⟩
      (getElem?_set_self' _ _ _ hk_lt_de) rfl ?_
    · exact this
    · intro j hj f hf
      rw [getElem?_set_ne' _ _ _ _ (by omega)] at hf
      exact (findEntryAux_none_iff _ _).mp hb' f (mem_of_getElem' _ _ _ hf)
  have hfounda : findEntryAux self2.dirEntries a = none := by
    rw [hde2]
    apply (findEntryAux_none_iff _ _).mpr
    intro f hf
    obtain ⟨j, hj⟩ := getElem?_of_mem' _ _ hf
    by_cases hjk : j = k
    · subst hjk
      rw [getElem?_set_self' _ _ _ hk_lt_de] at hj
      injection hj with hj
      subst hj
      exact hba
    · rw [getElem?_set_ne' _ _ _ _ hjk] at hj
      have hjlt : j < self.dirEntries.length := getElem?_some_lt _ _ _ hj
      have hjb : j < self.disk_inode.blocks := hdeLen ▸ hjlt
      have hjE : self.entries[j]? = some f := by
        rw [← getElem?_take_of_lt self.entries self.disk_inode.blocks j hjb]
        exact hj
      intro hna
      exact hjk (huniq j f hjE hjb hna)
  refine ⟨?_, ?_, ?_⟩
  · simp [FS.find, hget2, get_file_inode_id, get_file_inode_and_entry_id,
      hfoundb, hdir]
  · simp [FS.find, hget2, get_file_inode_id, get_file_inode_and_entry_id,
      hfounda, hdir]
  · rw [hget2]
    simp only [Option.map_some']
    exact congrArg some (getElem?_set_self' _ _ _ hkE)

/-- Witness for C6 at the concrete example. -/
theorem c6_witness :
    FS.find (c6fs.setInode 2 c6rootAfter) 2 "b" = Except.ok 3 ∧
    FS.find (c6fs.setInode 2 c6rootAfter) 2 "a" =
      Except.error FsError.EntryNotFound ∧
    ((c6fs.setInode 2 c6rootAfter).getInode? 2).map
      (fun s => s.entries[2]?) = some (some ⟨3, "b"⟩) :=
  c6_rename_find c6fs (c6fs.setInode 2 c6rootAfter) 2 c6root "a" "b" 3 2
    rfl rfl (by decide) (by decide) (by decide) (by decide) rfl
    (by
      intro j f hf hjb hn
      have h3 : j < 3 := hjb
      interval_cases j
      · simp [c6root] at hf
        subst hf
        exact absurd hn (by decide)
      · simp [c6root] at hf
        subst hf
        exact absurd hn (by decide)
      · rfl)
    (by decide) (by decide)

/-- C4: `unlink name` where `name` is bound to a directory with
`blocks > 2` fails with `DirNotEmpty`.  In the embedding (as in the
source, where every mutation follows this check) the error return
carries no state change. -/
theorem c4_unlink_dir_not_empty (fs : FS) (selfId : Nat) (self : Inode)
    (name : String) (x k : Nat) (target : Inode)
    (hself : fs.getInode? selfId = some self)
    (hdir : self.disk_inode.type_ = FileType.dir)
    (hnl : 0 < self.disk_inode.nlinks)
    (h1 : name ≠ ".") (h2 : name ≠ "..")
    (hfind : get_file_inode_and_entry_id self name = some (x, k))
    (htarget : fs.getInode? x = some target)
    (htdir : target.disk_inode.type_ = FileType.dir)
    (hblocks : 2 < target.disk_inode.blocks) :
    FS.unlink fs selfId name = Except.error FsError.DirNotEmpty := by
  have hz : self.disk_inode.nlinks ≠ 0 := by omega
  simp [FS.unlink, hself, hdir, hz, h1, h2, hfind, htarget, htdir,
    hblocks]

/-- Witness for C4 at the concrete example. -/
theorem c4_witness :
    FS.unlink c4fs 2 "d" = Except.error FsError.DirNotEmpty :=
  c4_unlink_dir_not_empty c4fs 2 c4root "d" 3 2 c4sub rfl rfl
    (by decide) (by decide) (by decide) rfl rfl rfl (by decide)

/-- Counterexample to C10 as stated: the name `.` is present in every
directory, yet `rename "." "."` fails with `IsDir`, not `EntryExist`
(the `.`/`..` guard runs before the collision check). -/
theorem c10_counterexample :
    (get_file_inode_id c7root ".").isSome = true ∧
    FS.rename c7fs 2 "." "." ≠ Except.error FsError.EntryExist ∧
    FS.rename c7fs 2 "." "." = Except.error FsError.IsDir := by
  refine ⟨by decide, by decide, by decide⟩

/-- C10 (amended): for every live directory receiver and every name
`a` present in it other than `.` and `..`, `rename a a` fails with
`EntryExist` — the collision check on the new name runs before the
source-entry lookup, so a same-name rename never succeeds. -/
theorem c10_rename_self (fs : FS) (selfId : Nat) (self : Inode)
    (a : String)
    (hself : fs.getInode? selfId = some self)
    (hdir : self.disk_inode.type_ = FileType.dir)
    (hnl : 0 < self.disk_inode.nlinks)
    (ha1 : a ≠ ".") (ha2 : a ≠ "..")
    (hpresent : (get_file_inode_id self a).isSome = true) :
    FS.rename fs selfId a a = Except.error FsError.EntryExist := by
  have hz : self.disk_inode.nlinks ≠ 0 := by omega
  simp [FS.rename, hself, hdir, hz, ha1, ha2, hpresent]

/-- Witness for the amended C10: renaming `a` onto itself fails with
`EntryExist` in the concrete example. -/
theorem c10_witness :
    FS.rename c6fs 2 "a" "a" = Except.error FsError.EntryExist :=
  c10_rename_self c6fs 2 c6root "a" rfl rfl (by decide) (by decide)
    (by decide) (by decide)

/-- Evaluation of `move_` at the failing input for C1: the name `c`
already exists in the target (and not in the receiver), so the claim
demands `EntryExist`; the source instead checks the receiver, the move
succeeds, and the target ends up with two entries named `c`.
Conversely a move keeping the name (`a` → `a`, present only in the
receiver) is spuriously rejected with `EntryExist`. -/
theorem c1_code_bug_eval :
    ((get_file_inode_id c1target "c").isSome = true ∧
      get_file_inode_id c1root "c" = none) ∧
    ((FS.move_ c1fs 2 "a" 4 "c").toOption.bind
      (fun fs => (fs.getInode? 4).map
        (fun d => (d.dirEntries.filter (fun e => e.name == "c")).length)))
      = some 2 ∧
    ((FS.move_ c1fs 2 "a" 4 "c").toOption.bind
      (fun fs => (fs.getInode? 2).map
        (fun s => get_file_inode_id s "a"))) = some none ∧
    FS.move_ c1fs 2 "a" 4 "a" = Except.error FsError.EntryExist := by
  refine ⟨⟨by decide, by decide⟩, by decide, by decide, by decide⟩

theorem getInode?_setInode_self (fs : FS) (id : Nat) (v : Inode) :
    (fs.setInode id v).getInode? id = some v :=
  lookupAssoc_setAssoc_self _ _ _

theorem getInode?_setInode_ne (fs : FS) (id j : Nat) (v : Inode)
    (h : j ≠ id) : (fs.setInode id v).getInode? j = fs.getInode? j :=
  lookupAssoc_setAssoc_ne _ _ _ _ h

theorem bitsetAlloc_some (l : List Bool) (i : Nat) (fm : List Bool)
    (h : bitsetAlloc l = some (i, fm)) :
    l[i]? = some true ∧ fm = l.set i false := by
  unfold bitsetAlloc at h
  cases hL : lowestTrue l with
  | none => rw [hL] at h; exact absurd h (by simp)
  | some id0 =>
    rw [hL] at h
    injection h with h
    injection h with h1 h2
    subst h1
    exact ⟨(lowestTrue_some _ _ hL).1, h2.symm⟩

theorem alloc_block_some (fs : FS) (i : Nat) (fs1 : FS)
    (hA : fs.alloc_block = (some i, fs1)) :
    fs.free_map[i]? = some true ∧ fs1.inodes = fs.inodes := by
  unfold FS.alloc_block at hA
  cases hB : bitsetAlloc fs.free_map with
  | none => rw [hB] at hA; exact absurd hA (by simp)
  | some p =>
    obtain ⟨bid, fm⟩ := p
    rw [hB] at hA
    simp only [] at hA
    by_cases hz : fs.super_block.unused_blocks = 0
    · rw [if_pos hz] at hA
      exact absurd hA (by simp)
    · rw [if_neg hz] at hA
      injection hA with hA1 hA2
      injection hA1 with hA1
      subst hA1
      obtain ⟨hget, _⟩ := bitsetAlloc_some _ _ _ hB
      exact ⟨hget, by rw [← hA2]⟩

theorem dirent_append_fields (ino : Inode) (e : DiskEntry)
    (ino2 : Inode) (h : dirent_append ino e = some ino2) :
    ino2.disk_inode.nlinks = ino.disk_inode.nlinks ∧
    ino2.disk_inode.type_ = ino.disk_inode.type_ := by
  unfold dirent_append at h
  cases hw : writeDirentry ino.entries ino.disk_inode.blocks e with
  | none => rw [hw] at h; exact absurd h (by simp)
  | some es =>
    rw [hw] at h
    injection h with h
    subst h
    exact ⟨rfl, rfl⟩

/-- C3: a successful `create name Dir` leaves the new child with
`nlinks = 2` and increments the receiver's `nlinks` by one; a
successful `create name File` leaves the child with `nlinks = 1` and
the receiver's `nlinks` unchanged. -/
theorem c3_create (fs : FS) (selfId : Nat) (self : Inode)
    (name : String) (t : FileType) (fs2 : FS) (newId : Nat)
    (hself : fs.getInode? selfId = some self)
    (hfree : fs.free_map[selfId]? = some false)
    (hok : FS.create fs selfId name t = Except.ok (fs2, newId)) :
    (fs2.getInode? newId).map (fun c => c.disk_inode.nlinks) =
      some (if t = FileType.dir then 2 else 1) ∧
    (fs2.getInode? selfId).map (fun s => s.disk_inode.nlinks) =
      some (self.disk_inode.nlinks +
        (if t = FileType.dir then 1 else 0)) := by
  simp only [FS.create, hself] at hok
  by_cases h1 : self.disk_inode.type_ ≠ FileType.dir
  · rw [if_pos h1] at hok
    exact absurd hok (by simp)
  rw [if_neg h1] at hok
  by_cases h2 : self.disk_inode.nlinks = 0
  · rw [if_pos h2] at hok
    exact absurd hok (by simp)
  rw [if_neg h2] at hok
  by_cases h3 : (get_file_inode_id self name).isSome = true
  · rw [if_pos h3] at hok
    exact absurd hok (by simp)
  rw [if_neg h3] at hok
  cases hA : fs.alloc_block with
  | mk iOpt fs1 =>
    rw [hA] at hok
    cases iOpt with
    | none => simp at hok
    | some i =>
      simp only [] at hok
      obtain ⟨hitrue, hinodes1⟩ := alloc_block_some fs i fs1 hA
      have hne : i ≠ selfId := by
        intro hcontra
        rw [hcontra, hfree] at hitrue
        simp at hitrue
      have hget1 : fs1.getInode? selfId = some self := by
        show lookupAssoc fs1.inodes selfId = some self
        rw [hinodes1]
        exact hself
      cases t with
      | file =>
        simp only [] at hok
        cases hD : dirent_append self ⟨i, name⟩ with
        | none =>
          have hupd : (fs1.setInode i ⟨DiskINode.new_file, []⟩).updateInodeE
              selfId (fun s => dirent_append s ⟨i, name⟩) =
              Except.error FsError.invalid := by
            unfold FS.updateInodeE
            rw [getInode?_setInode_ne fs1 i selfId _ (Ne.symm hne), hget1]
            simp [hD]
          rw [hupd] at hok
          simp at hok
        | some selfB =>
          have hupd : (fs1.setInode i ⟨DiskINode.new_file, []⟩).updateInodeE
              selfId (fun s => dirent_append s ⟨i, name⟩) =
              Except.ok ((fs1.setInode i ⟨DiskINode.new_file, []⟩).setInode
                selfId selfB) := by
            unfold FS.updateInodeE
            rw [getInode?_setInode_ne fs1 i selfId _ (Ne.symm hne), hget1]
            simp [hD]
          rw [hupd] at hok
          simp only [] at hok
          have hget3i : ((fs1.setInode i ⟨DiskINode.new_file, []⟩).setInode
              selfId selfB).getInode? i = some ⟨DiskINode.new_file, []⟩ := by
            rw [getInode?_setInode_ne _ selfId i selfB hne,
              getInode?_setInode_self]
          have hupd2 : ((fs1.setInode i ⟨DiskINode.new_file, []⟩).setInode
              selfId selfB).updateInode i nlinks_inc =
              ((fs1.setInode i ⟨DiskINode.new_file, []⟩).setInode selfId
                selfB).setInode i (nlinks_inc ⟨DiskINode.new_file, []⟩) := by
            unfold FS.updateInode
            rw [hget3i]
          rw [hupd2] at hok
          rw [if_neg (by decide : ¬ (FileType.file = FileType.dir))] at hok
          injection hok with hok
          injection hok with hok1 hok2
          subst hok1
          subst hok2
          constructor
          · rw [getInode?_setInode_self]
            simp [nlinks_inc, DiskINode.new_file]
          · rw [getInode?_setInode_ne _ _ _ _ (Ne.symm hne),
              getInode?_setInode_self]
            obtain ⟨hn, _⟩ := dirent_append_fields self ⟨i, name⟩ selfB hD
            simp [hn]
      | dir =>
        have hinit : dirent_init ⟨DiskINode.new_dir, []⟩ i selfId =
            some ⟨⟨0, FileType.dir, 2, 0, 0, 0, 0, 0, 0⟩,
              [⟨i, "."⟩, ⟨selfId, ".."⟩]⟩ := rfl
        rw [hinit] at hok
        simp only [] at hok
        set childD : Inode := ⟨⟨0, FileType.dir, 2, 0, 0, 0, 0, 0, 0⟩,
          [⟨i, "."⟩, ⟨selfId, ".."⟩]⟩ with hchildD
        cases hD : dirent_append self ⟨i, name⟩ with
        | none =>
          have hupd : (fs1.setInode i childD).updateInodeE
              selfId (fun s => dirent_append s ⟨i, name⟩) =
              Except.error FsError.invalid := by
            unfold FS.updateInodeE
            rw [getInode?_setInode_ne fs1 i selfId _ (Ne.symm hne), hget1]
            simp [hD]
          rw [hupd] at hok
          simp at hok
        | some selfB =>
          have hupd : (fs1.setInode i childD).updateInodeE
              selfId (fun s => dirent_append s ⟨i, name⟩) =
              Except.ok ((fs1.setInode i childD).setInode selfId selfB) := by
            unfold FS.updateInodeE
            rw [getInode?_setInode_ne fs1 i selfId _ (Ne.symm hne), hget1]
            simp [hD]
          rw [hupd] at hok
          simp only [] at hok
          have hget3i : ((fs1.setInode i childD).setInode
              selfId selfB).getInode? i = some childD := by
            rw [getInode?_setInode_ne _ selfId i selfB hne,
              getInode?_setInode_self]
          have hupd2 : ((fs1.setInode i childD).setInode selfId
              selfB).updateInode i nlinks_inc =
              ((fs1.setInode i childD).setInode selfId
                selfB).setInode i (nlinks_inc childD) := by
            unfold FS.updateInode
            rw [hget3i]
          rw [hupd2] at hok
          rw [if_pos trivial] at hok
          have hget4i : (((fs1.setInode i childD).setInode selfId
              selfB).setInode i (nlinks_inc childD)).getInode? i =
              some (nlinks_inc childD) := getInode?_setInode_self _ _ _
          have hupd3 : (((fs1.setInode i childD).setInode selfId
              selfB).setInode i (nlinks_inc childD)).updateInode i
              nlinks_inc =
              (((fs1.setInode i childD).setInode selfId
                selfB).setInode i (nlinks_inc childD)).setInode i
                (nlinks_inc (nlinks_inc childD)) := by
            unfold FS.updateInode
            rw [hget4i]
          rw [hupd3] at hok
          have hget5s : ((((fs1.setInode i childD).setInode selfId
              selfB).setInode i (nlinks_inc childD)).setInode i
              (nlinks_inc (nlinks_inc childD))).getInode? selfId =
              some selfB := by
            rw [getInode?_setInode_ne _ _ _ _ (Ne.symm hne),
              getInode?_setInode_ne _ _ _ _ (Ne.symm hne),
              getInode?_setInode_self]
          have hupd4 : ((((fs1.setInode i childD).setInode selfId
              selfB).setInode i (nlinks_inc childD)).setInode i
              (nlinks_inc (nlinks_inc childD))).updateInode selfId
              nlinks_inc =
              ((((fs1.setInode i childD).setInode selfId
                selfB).setInode i (nlinks_inc childD)).setInode i
                (nlinks_inc (nlinks_inc childD))).setInode selfId
                (nlinks_inc selfB) := by
            unfold FS.updateInode
            rw [hget5s]
          rw [hupd4] at hok
          injection hok with hok
          injection hok with hok1 hok2
          subst hok1
          subst hok2
          constructor
          · rw [getInode?_setInode_ne _ _ _ _ hne, getInode?_setInode_self]
            simp [nlinks_inc, hchildD]
          · rw [getInode?_setInode_self]
            obtain ⟨hn, _⟩ := dirent_append_fields self ⟨i, name⟩ selfB hD
            simp [nlinks_inc, hn]

/-- Witness for C3: creating a directory gives the child two links and
the receiver one more; creating a file gives the child one link and
leaves the receiver unchanged. -/
theorem c3_witness :
    ((c3fsAfterDir.getInode? 3).map (fun c => c.disk_inode.nlinks) =
      some (if FileType.dir = FileType.dir then 2 else 1) ∧
     (c3fsAfterDir.getInode? 2).map (fun s => s.disk_inode.nlinks) =
      some (c3root.disk_inode.nlinks +
        (if FileType.dir = FileType.dir then 1 else 0))) ∧
    ((c3fsAfterFile.getInode? 3).map (fun c => c.disk_inode.nlinks) =
      some (if FileType.file = FileType.dir then 2 else 1) ∧
     (c3fsAfterFile.getInode? 2).map (fun s => s.disk_inode.nlinks) =
      some (c3root.disk_inode.nlinks +
        (if FileType.file = FileType.dir then 1 else 0))) :=
  ⟨c3_create c3fs 2 c3root "d" FileType.dir c3fsAfterDir 3 rfl rfl
    (by decide),
   c3_create c3fs 2 c3root "f" FileType.file c3fsAfterFile 3 rfl rfl
    (by decide)⟩

theorem getElem?_ge_none {α : Type} (l : List α) (j : Nat)
    (h : l.length ≤ j) : l[j]? = none := by
  induction l generalizing j with
  | nil => simp
  | cons a t ih =>
    cases j with
    | zero => simp at h
    | succ j' =>
      rw [List.getElem?_cons_succ]
      exact ih j' (by simpa using h)

theorem foldl_set_true_getElem? (b a : Nat) (m : List Bool) (j : Nat) :
    ((List.range' a b).foldl (fun m i => m.set i true) m)[j]? =
      if a ≤ j ∧ j < a + b then
        (if j < m.length then some true else none)
      else m[j]? := by
  induction b generalizing a m with
  | zero =>
    simp only [List.range', List.foldl_nil]
    rw [if_neg (by omega)]
  | succ b' ih =>
    rw [List.range'_succ]
    simp only [List.foldl_cons]
    rw [ih (a + 1) (m.set a true)]
    by_cases h1 : a + 1 ≤ j ∧ j < a + 1 + b'
    · rw [if_pos h1, List.length_set,
        if_pos (show a ≤ j ∧ j < a + (b' + 1) by omega)]
    · rw [if_neg h1]
      by_cases h2 : j = a
      · subst h2
        rw [if_pos (by omega)]
        by_cases h3 : j < m.length
        · rw [if_pos h3]
          exact getElem?_set_self' m j true h3
        · rw [if_neg h3]
          have hs : (m.set j true) = m := List.set_eq_of_length_le
            (by omega)
          rw [hs]
          exact getElem?_ge_none m j (by omega)
      · rw [if_neg (by omega)]
        exact getElem?_set_ne' m a j true h2

theorem count_set_true (l : List Bool) (i : Nat) (h : l[i]? = some false) :
    (l.set i true).count true = l.count true + 1 := by
  induction l generalizing i with
  | nil => simp at h
  | cons x t ih =>
    cases i with
    | zero =>
      rw [List.getElem?_cons_zero] at h
      injection h with h
      subst h
      simp [List.count_cons]
    | succ i' =>
      rw [List.getElem?_cons_succ] at h
      simp only [List.set_cons_succ, List.count_cons]
      rw [ih i' h]
      omega

theorem count_set_false (l : List Bool) (i : Nat) (h : l[i]? = some true) :
    (l.set i false).count true + 1 = l.count true := by
  induction l generalizing i with
  | nil => simp at h
  | cons x t ih =>
    cases i with
    | zero =>
      rw [List.getElem?_cons_zero] at h
      injection h with h
      subst h
      simp [List.count_cons]
    | succ i' =>
      rw [List.getElem?_cons_succ] at h
      simp only [List.set_cons_succ, List.count_cons]
      rw [← ih i' h]
      omega

theorem init_free_map_getElem? (j : Nat) :
    init_free_map[j]? =
      if j < 3 then some false
      else if j < BLKBITS then some true
      else none := by
  unfold init_free_map
  rw [foldl_set_true_getElem?]
  have hB : BLKBITS = 32768 := rfl
  by_cases h1 : 3 ≤ j ∧ j < 3 + (BLKBITS - 3)
  · rw [if_pos h1, List.length_replicate, if_pos (by omega),
      if_neg (by omega)]
  · rw [if_neg h1, List.getElem?_replicate]
    by_cases h2 : j < 3
    · rw [if_pos (by omega), if_pos h2]
    · rw [if_neg (by omega), if_neg h2, if_neg (by omega)]

theorem count_init_free_map_aux (b : Nat) (hb : 3 + b ≤ BLKBITS) :
    ((List.range' 3 b).foldl (fun m i => m.set i true)
      (List.replicate BLKBITS false)).count true = b := by
  induction b with
  | zero =>
    simp only [List.range', List.foldl_nil, List.count_replicate]
    simp
  | succ b' ih =>
    rw [List.range'_1_concat, List.foldl_append]
    simp only [List.foldl_cons, List.foldl_nil]
    rw [count_set_true]
    · rw [ih (by omega)]
    · rw [foldl_set_true_getElem?, if_neg (by omega),
        List.getElem?_replicate, if_pos (by omega)]

/-- Count of free bits right after `SEFS::create`. -/
theorem count_init_free_map : init_free_map.count true = BLKBITS - 3 := by
  have hB : BLKBITS = 32768 := rfl
  unfold init_free_map
  exact count_init_free_map_aux (BLKBITS - 3) (by omega)

/-- Computed form of `SEFS::create`. -/
theorem SEFS_create_eq : SEFS_create = some createdFS := by
  unfold SEFS_create
  rw [show dirent_init ⟨DiskINode.new_dir, []⟩ BLKN_ROOT BLKN_ROOT =
      some ⟨⟨0, FileType.dir, 2, 0, 0, 0, 0, 0, 0⟩,
        [⟨BLKN_ROOT, "."⟩, ⟨BLKN_ROOT, ".."⟩]⟩ from rfl]
  simp only [FS.setInode, setAssoc, nlinks_inc, createdFS]

/-- Free map of the created filesystem. -/
theorem createdFS_free_map : createdFS.free_map = init_free_map := by
  simp only [createdFS]

/-- C8: `SEFS::create` initializes the superblock with
`unused_blocks = blocks - 3`, clears free-map bits `0..3`, sets bits
`3..blocks`, and builds a root directory with `nlinks = 2` whose
entries 0 and 1 are `.` and `..`, both with id `BLKN_ROOT` (the root
is its own parent). -/
theorem c8_sefs_create :
    SEFS_create = some createdFS ∧
    createdFS.super_block.unused_blocks = BLKBITS - 3 ∧
    createdFS.super_block.blocks = BLKBITS ∧
    (∀ i, i < 3 → createdFS.free_map[i]? = some false) ∧
    (∀ i, 3 ≤ i → i < BLKBITS → createdFS.free_map[i]? = some true) ∧
    createdFS.getInode? BLKN_ROOT =
      some ⟨⟨0, FileType.dir, 2, 0, 0, 0, 2, 0, 0⟩,
            [⟨BLKN_ROOT, "."⟩, ⟨BLKN_ROOT, ".."⟩]⟩ := by
  refine ⟨SEFS_create_eq, ?_, ?_, ?_, ?_, ?_⟩
  · exact rfl
  · exact rfl
  · intro i h
    rw [createdFS_free_map, init_free_map_getElem?, if_pos h]
  · intro i h3 hlt
    rw [createdFS_free_map, init_free_map_getElem?, if_neg (by omega),
      if_pos hlt]
  · exact rfl

/-- Witness for C8: bits 1 and 5 of the fresh free map. -/
theorem c8_witness :
    createdFS.free_map[1]? = some false ∧
    createdFS.free_map[5]? = some true :=
  ⟨c8_sefs_create.2.2.2.1 1 (by decide),
   c8_sefs_create.2.2.2.2.1 5 (by decide) (by decide)⟩

theorem setInode_free_map (fs : FS) (id : Nat) (v : Inode) :
    (fs.setInode id v).free_map = fs.free_map := rfl

theorem setInode_super_block (fs : FS) (id : Nat) (v : Inode) :
    (fs.setInode id v).super_block = fs.super_block := rfl

theorem updateInodeE_fields (fs : FS) (id : Nat) (f : Inode → Option Inode)
    (fs2 : FS) (h : fs.updateInodeE id f = Except.ok fs2) :
    fs2.free_map = fs.free_map ∧ fs2.super_block = fs.super_block := by
  unfold FS.updateInodeE at h
  cases hg : fs.getInode? id with
  | none => rw [hg] at h; exact absurd h (by simp)
  | some ino =>
    rw [hg] at h
    simp only [] at h
    cases hf : f ino with
    | none => rw [hf] at h; exact absurd h (by simp)
    | some ino2 =>
      rw [hf] at h
      simp only [] at h
      injection h with h
      subst h
      exact ⟨rfl, rfl⟩

theorem updateInode_fields (fs : FS) (id : Nat) (f : Inode → Inode) :
    (fs.updateInode id f).free_map = fs.free_map ∧
    (fs.updateInode id f).super_block = fs.super_block := by
  unfold FS.updateInode
  cases fs.getInode? id <;> exact ⟨rfl, rfl⟩

theorem rename_fields (fs : FS) (selfId : Nat) (a b : String) (fs2 : FS)
    (h : FS.rename fs selfId a b = Except.ok fs2) :
    fs2.free_map = fs.free_map ∧ fs2.super_block = fs.super_block := by
  unfold FS.rename at h
  cases hg : fs.getInode? selfId with
  | none => rw [hg] at h; exact absurd h (by simp)
  | some self =>
    rw [hg] at h
    simp only [] at h
    by_cases h1 : self.disk_inode.type_ ≠ FileType.dir
    · rw [if_pos h1] at h; exact absurd h (by simp)
    rw [if_neg h1] at h
    by_cases h2 : self.disk_inode.nlinks = 0
    · rw [if_pos h2] at h; exact absurd h (by simp)
    rw [if_neg h2] at h
    by_cases h3 : a = "."
    · rw [if_pos h3] at h; exact absurd h (by simp)
    rw [if_neg h3] at h
    by_cases h4 : a = ".."
    · rw [if_pos h4] at h; exact absurd h (by simp)
    rw [if_neg h4] at h
    by_cases h5 : (get_file_inode_id self b).isSome = true
    · rw [if_pos h5] at h; exact absurd h (by simp)
    rw [if_neg h5] at h
    cases hf : get_file_inode_and_entry_id self a with
    | none => rw [hf] at h; exact absurd h (by simp)
    | some p =>
      obtain ⟨x, k⟩ := p
      rw [hf] at h
      simp only [] at h
      exact updateInodeE_fields _ _ _ _ h

theorem link_fields (fs : FS) (selfId : Nat) (name : String)
    (otherId : Nat) (fs2 : FS)
    (h : FS.link fs selfId name otherId = Except.ok fs2) :
    fs2.free_map = fs.free_map ∧ fs2.super_block = fs.super_block := by
  unfold FS.link at h
  cases hg : fs.getInode? selfId with
  | none => rw [hg] at h; exact absurd h (by simp)
  | some self =>
    rw [hg] at h
    simp only [] at h
    by_cases h1 : self.disk_inode.type_ ≠ FileType.dir
    · rw [if_pos h1] at h; exact absurd h (by simp)
    rw [if_neg h1] at h
    by_cases h2 : self.disk_inode.nlinks = 0
    · rw [if_pos h2] at h; exact absurd h (by simp)
    rw [if_neg h2] at h
    by_cases h3 : (get_file_inode_id self name).isSome = true
    · rw [if_pos h3] at h; exact absurd h (by simp)
    rw [if_neg h3] at h
    cases hc : fs.getInode? otherId with
    | none => rw [hc] at h; exact absurd h (by simp)
    | some child =>
      rw [hc] at h
      simp only [] at h
      by_cases h4 : child.disk_inode.type_ = FileType.dir
      · rw [if_pos h4] at h; exact absurd h (by simp)
      rw [if_neg h4] at h
      cases hu : fs.updateInodeE selfId
          (fun s => dirent_append s ⟨otherId, name⟩) with
      | error e => rw [hu] at h; exact absurd h (by simp)
      | ok fs1 =>
        rw [hu] at h
        simp only [] at h
        injection h with h
        subst h
        obtain ⟨ha1, ha2⟩ := updateInodeE_fields _ _ _ _ hu
        obtain ⟨hb1, hb2⟩ := updateInode_fields fs1 otherId nlinks_inc
        exact ⟨by rw [hb1, ha1], by rw [hb2, ha2]⟩

theorem unlink_fields (fs : FS) (selfId : Nat) (name : String) (fs2 : FS)
    (h : FS.unlink fs selfId name = Except.ok fs2) :
    fs2.free_map = fs.free_map ∧ fs2.super_block = fs.super_block := by
  unfold FS.unlink at h
  cases hg : fs.getInode? selfId with
  | none => rw [hg] at h; exact absurd h (by simp)
  | some self =>
    rw [hg] at h
    simp only [] at h
    by_cases h1 : self.disk_inode.type_ ≠ FileType.dir
    · rw [if_pos h1] at h; exact absurd h (by simp)
    rw [if_neg h1] at h
    by_cases h2 : self.disk_inode.nlinks = 0
    · rw [if_pos h2] at h; exact absurd h (by simp)
    rw [if_neg h2] at h
    by_cases h3 : name = "."
    · rw [if_pos h3] at h; exact absurd h (by simp)
    rw [if_neg h3] at h
    by_cases h4 : name = ".."
    · rw [if_pos h4] at h; exact absurd h (by simp)
    rw [if_neg h4] at h
    cases hf : get_file_inode_and_entry_id self name with
    | none => rw [hf] at h; exact absurd h (by simp)
    | some p =>
      obtain ⟨inode_id, entry_id⟩ := p
      rw [hf] at h
      simp only [] at h
      cases hgi : fs.getInode? inode_id with
      | none => rw [hgi] at h; exact absurd h (by simp)
      | some inode =>
        rw [hgi] at h
        simp only [] at h
        by_cases h5 : inode.disk_inode.type_ = FileType.dir ∧
            2 < inode.disk_inode.blocks
        · rw [if_pos h5] at h; exact absurd h (by simp)
        rw [if_neg h5] at h
        cases hu1 : fs.updateInodeE inode_id nlinks_dec with
        | error e => rw [hu1] at h; exact absurd h (by simp)
        | ok fsA =>
          rw [hu1] at h
          simp only [] at h
          obtain ⟨hA1, hA2⟩ := updateInodeE_fields _ _ _ _ hu1
          by_cases h6 : inode.disk_inode.type_ = FileType.dir
          · rw [if_pos h6] at h
            cases hu2 : fsA.updateInodeE inode_id nlinks_dec with
            | error e => rw [hu2] at h; exact absurd h (by simp)
            | ok fsB =>
              rw [hu2] at h
              simp only [] at h
              obtain ⟨hB1, hB2⟩ := updateInodeE_fields _ _ _ _ hu2
              cases hu3 : fsB.updateInodeE selfId nlinks_dec with
              | error e => rw [hu3] at h; exact absurd h (by simp)
              | ok fsC =>
                rw [hu3] at h
                simp only [] at h
                obtain ⟨hC1, hC2⟩ := updateInodeE_fields _ _ _ _ hu3
                obtain ⟨hD1, hD2⟩ := updateInodeE_fields _ _ _ _ h
                exact ⟨by rw [hD1, hC1, hB1, hA1],
                       by rw [hD2, hC2, hB2, hA2]⟩
          · rw [if_neg h6] at h
            simp only [] at h
            obtain ⟨hD1, hD2⟩ := updateInodeE_fields _ _ _ _ h
            exact ⟨by rw [hD1, hA1], by rw [hD2, hA2]⟩

theorem move_fields (fs : FS) (selfId : Nat) (a : String)
    (targetId : Nat) (b : String) (fs2 : FS)
    (h : FS.move_ fs selfId a targetId b = Except.ok fs2) :
    fs2.free_map = fs.free_map ∧ fs2.super_block = fs.super_block := by
  unfold FS.move_ at h
  cases hg : fs.getInode? selfId with
  | none => rw [hg] at h; exact absurd h (by simp)
  | some self =>
    rw [hg] at h
    simp only [] at h
    by_cases h1 : self.disk_inode.type_ ≠ FileType.dir
    · rw [if_pos h1] at h; exact absurd h (by simp)
    rw [if_neg h1] at h
    by_cases h2 : self.disk_inode.nlinks = 0
    · rw [if_pos h2] at h; exact absurd h (by simp)
    rw [if_neg h2] at h
    by_cases h3 : a = "."
    · rw [if_pos h3] at h; exact absurd h (by simp)
    rw [if_neg h3] at h
    by_cases h4 : a = ".."
    · rw [if_pos h4] at h; exact absurd h (by simp)
    rw [if_neg h4] at h
    cases hd : fs.getInode? targetId with
    | none => rw [hd] at h; exact absurd h (by simp)
    | some dest =>
      rw [hd] at h
      simp only [] at h
      by_cases h5 : dest.disk_inode.type_ ≠ FileType.dir
      · rw [if_pos h5] at h; exact absurd h (by simp)
      rw [if_neg h5] at h
      by_cases h6 : dest.disk_inode.nlinks = 0
      · rw [if_pos h6] at h; exact absurd h (by simp)
      rw [if_neg h6] at h
      by_cases h7 : (get_file_inode_id self b).isSome = true
      · rw [if_pos h7] at h; exact absurd h (by simp)
      rw [if_neg h7] at h
      cases hf : get_file_inode_and_entry_id self a with
      | none => rw [hf] at h; exact absurd h (by simp)
      | some p =>
        obtain ⟨inode_id, entry_id⟩ := p
        rw [hf] at h
        simp only [] at h
        cases hgi : fs.getInode? inode_id with
        | none => rw [hgi] at h; exact absurd h (by simp)
        | some inode =>
          rw [hgi] at h
          simp only [] at h
          cases hu1 : fs.updateInodeE targetId
              (fun d => dirent_append d ⟨inode_id, b⟩) with
          | error e => rw [hu1] at h; exact absurd h (by simp)
          | ok fsA =>
            rw [hu1] at h
            simp only [] at h
            obtain ⟨hA1, hA2⟩ := updateInodeE_fields _ _ _ _ hu1
            cases hu2 : fsA.updateInodeE selfId
                (fun s => dirent_remove s entry_id) with
            | error e => rw [hu2] at h; exact absurd h (by simp)
            | ok fsB =>
              rw [hu2] at h
              simp only [] at h
              obtain ⟨hB1, hB2⟩ := updateInodeE_fields _ _ _ _ hu2
              by_cases h8 : inode.disk_inode.type_ = FileType.dir
              · rw [if_pos h8] at h
                cases hu3 : fsB.updateInodeE selfId nlinks_dec with
                | error e => rw [hu3] at h; exact absurd h (by simp)
                | ok fsC =>
                  rw [hu3] at h
                  simp only [] at h
                  obtain ⟨hC1, hC2⟩ := updateInodeE_fields _ _ _ _ hu3
                  injection h with h
                  subst h
                  obtain ⟨hE1, hE2⟩ := updateInode_fields fsC targetId
                    nlinks_inc
                  exact ⟨by rw [hE1, hC1, hB1, hA1],
                         by rw [hE2, hC2, hB2, hA2]⟩
              · rw [if_neg h8] at h
                injection h with h
                subst h
                exact ⟨by rw [hB1, hA1], by rw [hB2, hA2]⟩

theorem create_fields (fs : FS) (selfId : Nat) (name : String)
    (t : FileType) (fs2 : FS) (newId : Nat)
    (h : FS.create fs selfId name t = Except.ok (fs2, newId)) :
    fs2.free_map = (fs.alloc_block).2.free_map ∧
    fs2.super_block = (fs.alloc_block).2.super_block := by
  unfold FS.create at h
  cases hg : fs.getInode? selfId with
  | none => rw [hg] at h; exact absurd h (by simp)
  | some self =>
    rw [hg] at h
    simp only [] at h
    by_cases h1 : self.disk_inode.type_ ≠ FileType.dir
    · rw [if_pos h1] at h; exact absurd h (by simp)
    rw [if_neg h1] at h
    by_cases h2 : self.disk_inode.nlinks = 0
    · rw [if_pos h2] at h; exact absurd h (by simp)
    rw [if_neg h2] at h
    by_cases h3 : (get_file_inode_id self name).isSome = true
    · rw [if_pos h3] at h; exact absurd h (by simp)
    rw [if_neg h3] at h
    cases hA : fs.alloc_block with
    | mk iOpt fs1 =>
      rw [hA] at h
      cases iOpt with
      | none => simp at h
      | some i =>
        simp only [] at h
        show fs2.free_map = fs1.free_map ∧ fs2.super_block = fs1.super_block
        cases hci : (match t with
            | FileType.file => some (⟨DiskINode.new_file, []⟩ : Inode)
            | FileType.dir =>
              dirent_init ⟨DiskINode.new_dir, []⟩ i selfId) with
        | none => rw [hci] at h; exact absurd h (by simp)
        | some child =>
          rw [hci] at h
          simp only [] at h
          cases hu : (fs1.setInode i child).updateInodeE selfId
              (fun s => dirent_append s ⟨i, name⟩) with
          | error e => rw [hu] at h; exact absurd h (by simp)
          | ok fs3 =>
            rw [hu] at h
            simp only [] at h
            obtain ⟨hU1, hU2⟩ := updateInodeE_fields _ _ _ _ hu
            by_cases ht : t = FileType.dir
            · rw [if_pos ht] at h
              injection h with h
              injection h with ha hb
              subst ha
              obtain ⟨hx1, hx2⟩ := updateInode_fields
                ((fs3.updateInode i nlinks_inc).updateInode i nlinks_inc)
                selfId nlinks_inc
              obtain ⟨hy1, hy2⟩ := updateInode_fields
                (fs3.updateInode i nlinks_inc) i nlinks_inc
              obtain ⟨hz1, hz2⟩ := updateInode_fields fs3 i nlinks_inc
              exact ⟨by rw [hx1, hy1, hz1, hU1, setInode_free_map],
                     by rw [hx2, hy2, hz2, hU2, setInode_super_block]⟩
            · rw [if_neg ht] at h
              injection h with h
              injection h with ha hb
              subst ha
              obtain ⟨hz1, hz2⟩ := updateInode_fields fs3 i nlinks_inc
              exact ⟨by rw [hz1, hU1, setInode_free_map],
                     by rw [hz2, hU2, setInode_super_block]⟩

theorem sefs_create_invariant (fsC : FS) (h : SEFS_create = some fsC) :
    fsInvariant fsC := by
  rw [SEFS_create_eq] at h
  injection h with h
  subst h
  show createdFS.super_block.unused_blocks = createdFS.free_map.count true
  rw [createdFS_free_map, count_init_free_map]
  rfl

theorem alloc_preserves (fs : FS) (hinv : fsInvariant fs) :
    fsInvariant (fs.alloc_block).2 := by
  unfold FS.alloc_block
  cases hB : bitsetAlloc fs.free_map with
  | none => exact hinv
  | some p =>
    obtain ⟨bid, fm⟩ := p
    simp only []
    obtain ⟨hbtrue, hfm⟩ := bitsetAlloc_some _ _ _ hB
    subst hfm
    by_cases hz : fs.super_block.unused_blocks = 0
    · rw [if_pos hz]
      show fs.super_block.unused_blocks =
        ((fs.free_map.set bid false).set bid true).count true
      rw [List.set_set, set_get_self _ _ _ hbtrue]
      exact hinv
    · rw [if_neg hz]
      show fs.super_block.unused_blocks - 1 =
        (fs.free_map.set bid false).count true
      have hc := count_set_false fs.free_map bid hbtrue
      have hi : fs.super_block.unused_blocks = fs.free_map.count true :=
        hinv
      omega

theorem free_preserves (fs : FS) (id : Nat) (fs2 : FS)
    (h : fs.free_block id = some fs2) (hinv : fsInvariant fs) :
    fsInvariant fs2 := by
  unfold FS.free_block at h
  cases hg : fs.free_map[id]? with
  | none => rw [hg] at h; exact absurd h (by simp)
  | some b =>
    rw [hg] at h
    cases b with
    | true => exact absurd h (by simp)
    | false =>
      simp only [] at h
      injection h with h
      subst h
      show fs.super_block.unused_blocks + 1 =
        (fs.free_map.set id true).count true
      rw [count_set_true _ _ hg]
      have hi : fs.super_block.unused_blocks = fs.free_map.count true :=
        hinv
      omega

theorem create_preserves (fs : FS) (selfId : Nat) (name : String)
    (t : FileType) (fs2 : FS) (newId : Nat)
    (h : FS.create fs selfId name t = Except.ok (fs2, newId))
    (hinv : fsInvariant fs) : fsInvariant fs2 := by
  obtain ⟨h1, h2⟩ := create_fields _ _ _ _ _ _ h
  have := alloc_preserves fs hinv
  show fs2.super_block.unused_blocks = fs2.free_map.count true
  rw [h1, h2]
  exact this

theorem unlink_preserves (fs : FS) (selfId : Nat) (name : String)
    (fs2 : FS) (h : FS.unlink fs selfId name = Except.ok fs2)
    (hinv : fsInvariant fs) : fsInvariant fs2 := by
  obtain ⟨h1, h2⟩ := unlink_fields _ _ _ _ h
  show fs2.super_block.unused_blocks = fs2.free_map.count true
  rw [h1, h2]
  exact hinv

theorem link_preserves (fs : FS) (selfId : Nat) (name : String)
    (otherId : Nat) (fs2 : FS)
    (h : FS.link fs selfId name otherId = Except.ok fs2)
    (hinv : fsInvariant fs) : fsInvariant fs2 := by
  obtain ⟨h1, h2⟩ := link_fields _ _ _ _ _ h
  show fs2.super_block.unused_blocks = fs2.free_map.count true
  rw [h1, h2]
  exact hinv

theorem rename_preserves (fs : FS) (selfId : Nat) (a b : String)
    (fs2 : FS) (h : FS.rename fs selfId a b = Except.ok fs2)
    (hinv : fsInvariant fs) : fsInvariant fs2 := by
  obtain ⟨h1, h2⟩ := rename_fields _ _ _ _ _ h
  show fs2.super_block.unused_blocks = fs2.free_map.count true
  rw [h1, h2]
  exact hinv

theorem move_preserves (fs : FS) (selfId : Nat) (a : String)
    (targetId : Nat) (b : String) (fs2 : FS)
    (h : FS.move_ fs selfId a targetId b = Except.ok fs2)
    (hinv : fsInvariant fs) : fsInvariant fs2 := by
  obtain ⟨h1, h2⟩ := move_fields _ _ _ _ _ _ h
  show fs2.super_block.unused_blocks = fs2.free_map.count true
  rw [h1, h2]
  exact hinv

/-- C9: the invariant `unused_blocks == count(free_map == true)` holds
after `SEFS::create` and is preserved by `alloc_block` (coupled
decrement), by `free_block` (coupled increment), and by every
successfully-returning modelled operation (`create`, `unlink`, `link`,
`rename`, `move_`; the read-only operations return no state). -/
theorem c9_invariant :
    (∀ fsC, SEFS_create = some fsC → fsInvariant fsC) ∧
    (∀ fs : FS, fsInvariant fs → fsInvariant (fs.alloc_block).2) ∧
    (∀ (fs : FS) (id : Nat) (fs2 : FS), fs.free_block id = some fs2 →
      fsInvariant fs → fsInvariant fs2) ∧
    (∀ (fs : FS) (selfId : Nat) (name : String) (t : FileType)
      (fs2 : FS) (newId : Nat),
      FS.create fs selfId name t = Except.ok (fs2, newId) →
      fsInvariant fs → fsInvariant fs2) ∧
    (∀ (fs : FS) (selfId : Nat) (name : String) (fs2 : FS),
      FS.unlink fs selfId name = Except.ok fs2 →
      fsInvariant fs → fsInvariant fs2) ∧
    (∀ (fs : FS) (selfId : Nat) (name : String) (otherId : Nat)
      (fs2 : FS), FS.link fs selfId name otherId = Except.ok fs2 →
      fsInvariant fs → fsInvariant fs2) ∧
    (∀ (fs : FS) (selfId : Nat) (a b : String) (fs2 : FS),
      FS.rename fs selfId a b = Except.ok fs2 →
      fsInvariant fs → fsInvariant fs2) ∧
    (∀ (fs : FS) (selfId : Nat) (a : String) (targetId : Nat)
      (b : String) (fs2 : FS),
      FS.move_ fs selfId a targetId b = Except.ok fs2 →
      fsInvariant fs → fsInvariant fs2) :=
  ⟨sefs_create_invariant, alloc_preserves, free_preserves,
   create_preserves, unlink_preserves, link_preserves, rename_preserves,
   move_preserves⟩

/-- Witness for C9: freeing block 2 keeps the invariant. -/
theorem c9_witness : fsInvariant c9fsAfter :=
  c9_invariant.2.2.1 c9fs 2 c9fsAfter (by decide)
    (by unfold fsInvariant; decide)
